import Mathlib

/-
Verification of the OTP relay bot (bot.py) against its design specification.

The development shallowly embeds the detection-and-dedup pipeline:
  * the OTP pattern extractor `extract_otp` with its ordered pattern list,
  * the two phone-masking functions `format_phone_number` and `mask_number`,
  * the timestamp renderer used for `receivedAt` fields,
  * the polling cycle `send_success_numbers_to_group`, decomposed into the
    filtering step (dedup against the `sent_numbers` set) and the delivery
    step (sequential sends inside a single exception scope).

Character classes of the Python regexes (`\d`, `\w`, `\s`) are modelled by
their ASCII meaning (`Char.isDigit`, alphanumeric-or-underscore,
`Char.isWhitespace`); all inputs considered in the concrete theorems are
ASCII, where the model coincides with Python semantics.
-/

set_option autoImplicit false
set_option maxRecDepth 8192

/-! Data model: upstream records, as consumed by `send_success_numbers_to_group`.
Fields are `Option String` because the code reads them with `dict.get`,
which yields `None` when the key is absent. -/

structure UpRecord where
  id : Option String := none
  receivedAt : Option String := none
  country : Option String := none
  phoneNumber : Option String := none
  otpCode : Option String := none
  service : Option String := none
  fullMessage : Option String := none
deriving DecidableEq, Repr

/-- Truthiness test the code applies to `n.get("id")`: the id participates in
dedup only when it is present and non-empty (`if nid and ...`). -/
def truthyId (r : UpRecord) : Option String :=
  match r.id with
  | some s => if s = "" then none else some s
  | none => none

/-! Reconciliation cycle (bot.py, send_success_numbers_to_group, lines 159-229). -/

/-- Filtering step (lines 165-170): for each record in upstream order, if its id
is truthy and not yet in `sent_numbers`, append the record to the `new` list and
add the id to the set. Returns the kept records and the updated set. -/
def filterNew (sent : Finset String) : List UpRecord → List UpRecord × Finset String
  | [] => ([], sent)
  | n :: ns =>
    match truthyId n with
    | none => filterNew sent ns
    | some nid =>
      if nid ∈ sent then filterNew sent ns
      else (n :: (filterNew (insert nid sent) ns).1, (filterNew (insert nid sent) ns).2)

/-- Delivery step (lines 174-226): records are sent one by one inside the single
try/except of the function, so the first failing `send_message` raises to the
outer handler and delivery of all later records is abandoned. `fails r = true`
models `send_message` raising for record `r`; the result is the list of records
actually delivered. -/
def deliverAll (fails : UpRecord → Bool) : List UpRecord → List UpRecord
  | [] => []
  | r :: rs => if fails r then [] else r :: deliverAll fails rs

/-- One polling cycle (lines 159-229), as a state transition on the
`sent_numbers` set. `numbers` is the fetched page: a fetch failure or non-200
response yields `[]` (the fetch helpers catch their own exceptions and return
an empty list), which makes the cycle return early. The result is the updated
set together with the list of records whose announcement was delivered. -/
def send_success_numbers_to_group (fails : UpRecord → Bool) (sent : Finset String)
    (numbers : List UpRecord) : Finset String × List UpRecord :=
  if numbers.isEmpty then (sent, [])
  else
    if (filterNew sent numbers).1.isEmpty then ((filterNew sent numbers).2, [])
    else ((filterNew sent numbers).2, deliverAll fails (filterNew sent numbers).1)

/-! Phone masking (bot.py lines 135-141 and 191-195). -/

/-- Mask glyph run `"*****"` shared by both masking functions. -/
def stars5 : List Char := ['*', '*', '*', '*', '*']

/-- Inbound-path masking (lines 135-141): `re.sub(r"\D", "", ...)` keeps the
digits; fewer than 6 digits returns the raw input unchanged, otherwise the
first 3 digits, five asterisks and the last 3 digits. -/
def format_phone_number (phone : String) : String :=
  if phone = "" then "Unknown"
  else
    if (phone.data.filter Char.isDigit).length < 6 then phone
    else
      String.mk ((phone.data.filter Char.isDigit).take 3 ++ stars5 ++
        (phone.data.filter Char.isDigit).drop ((phone.data.filter Char.isDigit).length - 3))

/-- Upstream-path masking (lines 191-195): more than 6 digits keeps the first 5
digits, five asterisks and the last 3 digits; otherwise the bare digits are
returned, with `"N/A"` when no digit remains. -/
def mask_number (num : String) : String :=
  if 6 < (num.data.filter Char.isDigit).length then
    String.mk ((num.data.filter Char.isDigit).take 5 ++ stars5 ++
      (num.data.filter Char.isDigit).drop ((num.data.filter Char.isDigit).length - 3))
  else
    if (num.data.filter Char.isDigit).isEmpty then "N/A"
    else String.mk (num.data.filter Char.isDigit)

/-! OTP extraction (bot.py lines 52-60 and 85-94).

The regexes reduce to operations on maximal word-character runs:
`\b\d{4,8}\b` matches exactly the maximal `\w`-runs that consist of 4-8
digits, `\b[A-Z0-9]{4,8}\b` with IGNORECASE the runs of 4-8 alphanumeric
characters, and the labeled patterns scan for the leftmost occurrence of the
label followed by separators and at least one digit. -/

/-- Word character of the regex `\b` boundary: alphanumeric or underscore. -/
def isWordChar (c : Char) : Bool := c.isAlphanum || c == '_'

/-- Accumulating splitter producing the maximal word-character runs of a
character list, in text order. -/
def splitTokensAux : List Char → List Char → List (List Char)
  | [], acc => if acc.isEmpty then [] else [acc.reverse]
  | c :: cs, acc =>
    if isWordChar c then splitTokensAux cs (c :: acc)
    else if acc.isEmpty then splitTokensAux cs [] else acc.reverse :: splitTokensAux cs []

/-- Maximal word-character runs of a text, in order. -/
def wordTokens (text : String) : List (List Char) := splitTokensAux text.data []

/-- Token accepted by `\b\d{4,8}\b`: 4-8 characters, all digits. -/
def isDigitToken (t : List Char) : Bool :=
  t.all Char.isDigit && decide (4 ≤ t.length) && decide (t.length ≤ 8)

/-- Token accepted by `\b[A-Z0-9]{4,8}\b` with IGNORECASE: 4-8 characters, all
alphanumeric. -/
def isAlnumToken (t : List Char) : Bool :=
  t.all Char.isAlphanum && decide (4 ≤ t.length) && decide (t.length ≤ 8)

/-- Matches of the bare digit pattern, in text order. -/
def digitTokens (text : String) : List String :=
  ((wordTokens text).filter isDigitToken).map String.mk

/-- Matches of the bare alphanumeric pattern, in text order. -/
def alnumTokens (text : String) : List String :=
  ((wordTokens text).filter isAlnumToken).map String.mk

/-- Case-insensitive literal prefix match: returns the remainder of the input
after the label when the label is a prefix (up to ASCII case). -/
def dropLabelCI : List Char → List Char → Option (List Char)
  | [], s => some s
  | _ :: _, [] => none
  | l :: ls, c :: cs => if l.toLower == c.toLower then dropLabelCI ls cs else none

/-- Separator class `[:\s]` of the labeled patterns. -/
def isSepChar (c : Char) : Bool := c == ':' || c.isWhitespace

/-- Leftmost match of a labeled pattern `label[:\s]*(\d+)` (case-insensitive):
scan for the first position where the label matches and, after greedily
skipping separators, at least one digit follows; return the maximal digit
run captured there. -/
def findLabeled (label : List Char) : List Char → Option String
  | [] => none
  | c :: cs =>
    match dropLabelCI label (c :: cs) with
    | some rest =>
      match (rest.dropWhile isSepChar).takeWhile Char.isDigit with
      | [] => findLabeled label cs
      | d :: ds => some (String.mk (d :: ds))
    | none => findLabeled label cs

/-- First match of each pattern of `self.otp_patterns`, in the order the list
is written in the source: the two bare-token patterns first, then the five
labeled patterns. `re.findall` is non-empty exactly when the first match
exists, and `extract_otp` only consumes the first match. -/
def otpPatternFirsts (text : String) : List (Option String) :=
  [ (digitTokens text).head?,
    (alnumTokens text).head?,
    findLabeled ("verification code".data) text.data,
    findLabeled ("your code".data) text.data,
    findLabeled ("otp".data) text.data,
    findLabeled ("code".data) text.data,
    findLabeled ("pin".data) text.data ]

/-- OTP extraction (lines 85-94): iterate the patterns in order and return the
first pattern's first match; every pattern has at most one capturing group, so
the tuple branch of the Python code never fires and the returned value is the
first match (or first capture) of the first matching pattern. -/
def extract_otp (text : String) : Option String := (otpPatternFirsts text).findSome? id

/-! Timestamp rendering (bot.py lines 175-183): `datetime.fromisoformat` on the
`receivedAt` value with `"Z"` replaced by `"+00:00"`, a 6 hour shift, and
`strftime("%d-%m-%Y %I:%M:%S %p")`; any parse failure keeps the raw string. -/

structure PyDateTime where
  year : Nat
  month : Nat
  day : Nat
  hour : Nat
  minute : Nat
  second : Nat
deriving DecidableEq, Repr

/-- Numeric value of an ASCII digit character. -/
def digitVal (c : Char) : Nat := c.toNat - 48

/-- Reads exactly two digit characters. -/
def twoDigits : List Char → Option (Nat × List Char)
  | a :: b :: rest =>
    if a.isDigit && b.isDigit then some (10 * digitVal a + digitVal b, rest) else none
  | _ => none

/-- Reads exactly four digit characters. -/
def fourDigits : List Char → Option (Nat × List Char)
  | a :: b :: c :: d :: rest =>
    if a.isDigit && b.isDigit && c.isDigit && d.isDigit then
      some (1000 * digitVal a + 100 * digitVal b + 10 * digitVal c + digitVal d, rest)
    else none
  | _ => none

def isLeapYear (y : Nat) : Bool := (y % 4 == 0 && y % 100 != 0) || y % 400 == 0

def daysInMonth (y m : Nat) : Nat :=
  if m == 2 then (if isLeapYear y then 29 else 28)
  else if m == 4 || m == 6 || m == 9 || m == 11 then 30
  else 31

def validDate (y m d : Nat) : Bool :=
  decide (1 ≤ y) && decide (y ≤ 9999) && decide (1 ≤ m) && decide (m ≤ 12) &&
    decide (1 ≤ d) && decide (d ≤ daysInMonth y m)

def validTime (h mi s : Nat) : Bool :=
  decide (h ≤ 23) && decide (mi ≤ 59) && decide (s ≤ 59)

/-- Accepts an empty remainder or a `±HH:MM` UTC-offset suffix, as
`datetime.fromisoformat` does for the timestamps at issue. -/
def tzSuffixOk : List Char → Bool
  | [] => true
  | c :: rest =>
    if c == '+' || c == '-' then
      match twoDigits rest with
      | some (oh, r1) =>
        match r1 with
        | ':' :: r2 =>
          match twoDigits r2 with
          | some (om, r3) => r3.isEmpty && decide (oh ≤ 23) && decide (om ≤ 59)
          | none => false
        | _ => false
      | none => false
    else false

/-- Parses the `HH:MM[:SS]` time part followed by an optional offset suffix. -/
def timePart (y mo d : Nat) (rest : List Char) : Option PyDateTime :=
  match twoDigits rest with
  | none => none
  | some (h, r1) =>
    match r1 with
    | ':' :: r2 =>
      match twoDigits r2 with
      | none => none
      | some (mi, r3) =>
        match r3 with
        | ':' :: r4 =>
          match twoDigits r4 with
          | none => none
          | some (se, r5) =>
            if tzSuffixOk r5 && validTime h mi se then some ⟨y, mo, d, h, mi, se⟩ else none
        | _ =>
          if tzSuffixOk r3 && validTime h mi 0 then some ⟨y, mo, d, h, mi, 0⟩ else none
    | _ => none

/-- Model of `datetime.fromisoformat` on the common ISO-8601 shapes
`YYYY-MM-DD[{T or space}HH:MM[:SS]][±HH:MM]`: returns `none` exactly where the
Python call raises `ValueError` on such inputs, and on every other shape
(which the surrounding `except` also maps to the pass-through branch). The
parsed offset is validated and discarded, since `strftime` renders the
wall-clock fields without converting. -/
def fromisoformat (s : String) : Option PyDateTime :=
  match fourDigits s.data with
  | none => none
  | some (y, r1) =>
    match r1 with
    | '-' :: r2 =>
      match twoDigits r2 with
      | none => none
      | some (mo, r3) =>
        match r3 with
        | '-' :: r4 =>
          match twoDigits r4 with
          | none => none
          | some (d, r5) =>
            if validDate y mo d then
              match r5 with
              | [] => some ⟨y, mo, d, 0, 0, 0⟩
              | c :: r6 => if c == 'T' || c == ' ' then timePart y mo d r6 else none
            else none
        | _ => none
    | _ => none

/-- Model of `timedelta(hours=6)` addition on a calendar datetime: at most one
day of rollover, with month and year carried. -/
def addHours6 (dt : PyDateTime) : PyDateTime :=
  if dt.hour + 6 < 24 then { dt with hour := dt.hour + 6 }
  else
    if dt.day < daysInMonth dt.year dt.month then
      { dt with day := dt.day + 1, hour := dt.hour + 6 - 24 }
    else if dt.month < 12 then
      { dt with month := dt.month + 1, day := 1, hour := dt.hour + 6 - 24 }
    else
      { year := dt.year + 1, month := 1, day := 1, hour := dt.hour + 6 - 24,
        minute := dt.minute, second := dt.second }

/-- Two-digit zero padding of `strftime`. -/
def pad2 (n : Nat) : String := if n < 10 then "0" ++ toString n else toString n

/-- Four-digit zero padding for `%Y`. -/
def pad4 (n : Nat) : String :=
  if n < 10 then "000" ++ toString n
  else if n < 100 then "00" ++ toString n
  else if n < 1000 then "0" ++ toString n
  else toString n

/-- Model of `strftime("%d-%m-%Y %I:%M:%S %p")`: 12-hour clock with zero
padding and an AM/PM marker. -/
def strftimeDisplay (dt : PyDateTime) : String :=
  pad2 dt.day ++ "-" ++ pad2 dt.month ++ "-" ++ pad4 dt.year ++ " " ++
    pad2 (if dt.hour % 12 == 0 then 12 else dt.hour % 12) ++ ":" ++
    pad2 dt.minute ++ ":" ++ pad2 dt.second ++ " " ++
    (if dt.hour < 12 then "AM" else "PM")

/-- Model of `time_str.replace("Z", "+00:00")`: every `Z` is replaced. -/
def replaceZ (s : String) : String :=
  String.mk (s.data.foldr
    (fun c acc => if c == 'Z' then '+' :: '0' :: '0' :: ':' :: '0' :: '0' :: acc else c :: acc)
    [])

/-- Rendering of the `receivedAt` value (lines 175-183): the string obtained
from `number.get("receivedAt", "N/A")` is formatted only when it is non-empty
and not the `"N/A"` default; a parse failure keeps the raw string, so the
formatting never raises past its boundary. -/
def renderReceivedTime (time_str : String) : String :=
  if time_str ≠ "" ∧ time_str ≠ "N/A" then
    match fromisoformat (replaceZ time_str) with
    | some dt => strftimeDisplay (addHours6 dt)
    | none => time_str
  else time_str

/-! Concrete records used by the closed theorems. -/

def recA : UpRecord := { id := some ("a") }

def recB : UpRecord := { id := some ("b") }

def recC : UpRecord := { id := some ("c") }

def recNone : UpRecord := { id := none }

/-- Delivery oracle that fails exactly on the record with id `"a"`. -/
def failsRecA : UpRecord → Bool := fun r => decide (r.id = some ("a"))

/-! Helper lemmas about the filtering step. -/

theorem filterNew_nil (sent : Finset String) : filterNew sent [] = ([], sent) := rfl

theorem filterNew_cons_none (sent : Finset String) (n : UpRecord) (ns : List UpRecord)
    (h : truthyId n = none) : filterNew sent (n :: ns) = filterNew sent ns := by
  simp only [filterNew, h]

theorem filterNew_cons_seen (sent : Finset String) (n : UpRecord) (ns : List UpRecord)
    (nid : String) (h : truthyId n = some nid) (hm : nid ∈ sent) :
    filterNew sent (n :: ns) = filterNew sent ns := by
  simp only [filterNew, h, if_pos hm]

theorem filterNew_cons_new (sent : Finset String) (n : UpRecord) (ns : List UpRecord)
    (nid : String) (h : truthyId n = some nid) (hm : nid ∉ sent) :
    filterNew sent (n :: ns) =
      (n :: (filterNew (insert nid sent) ns).1, (filterNew (insert nid sent) ns).2) := by
  simp only [filterNew, h, if_neg hm]

theorem filterNew_sent_eq : ∀ (ns : List UpRecord) (sent : Finset String),
    (filterNew sent ns).2 = sent ∪ ((filterNew sent ns).1.filterMap truthyId).toFinset := by
  intro ns
  induction ns with
  | nil => intro sent; simp [filterNew_nil]
  | cons n ns ih =>
    intro sent
    rcases h : truthyId n with _ | nid
    · rw [filterNew_cons_none sent n ns h]; exact ih sent
    · by_cases hm : nid ∈ sent
      · rw [filterNew_cons_seen sent n ns nid h hm]; exact ih sent
      · rw [filterNew_cons_new sent n ns nid h hm]
        simp only [List.filterMap_cons, h, List.toFinset_cons]
        rw [ih (insert nid sent)]
        ext x
        simp only [Finset.mem_union, Finset.mem_insert, List.mem_toFinset]
        tauto

theorem filterNew_ids_not_mem : ∀ (ns : List UpRecord) (sent : Finset String) (s : String),
    s ∈ (filterNew sent ns).1.filterMap truthyId → s ∉ sent := by
  intro ns
  induction ns with
  | nil => intro sent s hs; simp [filterNew_nil] at hs
  | cons n ns ih =>
    intro sent s hs
    rcases h : truthyId n with _ | nid
    · rw [filterNew_cons_none sent n ns h] at hs; exact ih sent s hs
    · by_cases hm : nid ∈ sent
      · rw [filterNew_cons_seen sent n ns nid h hm] at hs; exact ih sent s hs
      · rw [filterNew_cons_new sent n ns nid h hm] at hs
        simp only [List.filterMap_cons, h, List.mem_cons] at hs
        rcases hs with rfl | hs
        · exact hm
        · intro hmem
          exact ih (insert nid sent) s hs (Finset.mem_insert_of_mem hmem)

theorem filterNew_ids_nodup : ∀ (ns : List UpRecord) (sent : Finset String),
    ((filterNew sent ns).1.filterMap truthyId).Nodup := by
  intro ns
  induction ns with
  | nil => intro sent; simp [filterNew_nil]
  | cons n ns ih =>
    intro sent
    rcases h : truthyId n with _ | nid
    · rw [filterNew_cons_none sent n ns h]; exact ih sent
    · by_cases hm : nid ∈ sent
      · rw [filterNew_cons_seen sent n ns nid h hm]; exact ih sent
      · rw [filterNew_cons_new sent n ns nid h hm]
        simp only [List.filterMap_cons, h, List.nodup_cons]
        refine ⟨fun hmem => ?_, ih (insert nid sent)⟩
        exact filterNew_ids_not_mem ns (insert nid sent) nid hmem (Finset.mem_insert_self nid sent)

theorem filterNew_mem_truthy : ∀ (ns : List UpRecord) (sent : Finset String) (r : UpRecord),
    r ∈ (filterNew sent ns).1 → ∃ s, truthyId r = some s ∧ s ∉ sent := by
  intro ns
  induction ns with
  | nil => intro sent r hr; simp [filterNew_nil] at hr
  | cons n ns ih =>
    intro sent r hr
    rcases h : truthyId n with _ | nid
    · rw [filterNew_cons_none sent n ns h] at hr; exact ih sent r hr
    · by_cases hm : nid ∈ sent
      · rw [filterNew_cons_seen sent n ns nid h hm] at hr; exact ih sent r hr
      · rw [filterNew_cons_new sent n ns nid h hm] at hr
        rcases List.mem_cons.mp hr with rfl | hr
        · exact ⟨nid, h, hm⟩
        · obtain ⟨s, hs, hns⟩ := ih (insert nid sent) r hr
          exact ⟨s, hs, fun hmem => hns (Finset.mem_insert_of_mem hmem)⟩

theorem filterNew_all_seen : ∀ (ns : List UpRecord) (sent : Finset String),
    (∀ s ∈ ns.filterMap truthyId, s ∈ sent) → filterNew sent ns = ([], sent) := by
  intro ns
  induction ns with
  | nil => intro sent _; rfl
  | cons n ns ih =>
    intro sent hall
    rcases h : truthyId n with _ | nid
    · rw [filterNew_cons_none sent n ns h]
      exact ih sent (fun s hs => hall s (by simp [List.filterMap_cons, h, hs]))
    · have hm : nid ∈ sent := hall nid (by simp [List.filterMap_cons, h])
      rw [filterNew_cons_seen sent n ns nid h hm]
      exact ih sent (fun s hs => hall s (by simp [List.filterMap_cons, h, hs]))

/-! Helper lemmas about the delivery step and the whole cycle. -/

theorem deliverAll_mem (fails : UpRecord → Bool) :
    ∀ (l : List UpRecord) (r : UpRecord), r ∈ deliverAll fails l → r ∈ l := by
  intro l
  induction l with
  | nil => intro r hr; simp [deliverAll] at hr
  | cons a l ih =>
    intro r hr
    by_cases hf : fails a
    · simp [deliverAll, hf] at hr
    · simp only [deliverAll, hf, Bool.false_eq_true, if_false, List.mem_cons] at hr
      rcases hr with rfl | hr
      · exact List.mem_cons_self r l
      · exact List.mem_cons_of_mem a (ih r hr)

theorem cycle_fst_eq (fails : UpRecord → Bool) (sent : Finset String) (ns : List UpRecord) :
    (send_success_numbers_to_group fails sent ns).1 =
      sent ∪ ((filterNew sent ns).1.filterMap truthyId).toFinset := by
  unfold send_success_numbers_to_group
  cases hns : ns.isEmpty
  · cases hnew : (filterNew sent ns).1.isEmpty <;>
      simp [hns, hnew, filterNew_sent_eq ns sent]
  · have : ns = [] := List.isEmpty_iff.mp hns
    subst this
    simp [filterNew_nil]

theorem cycle_snd_sub (fails : UpRecord → Bool) (sent : Finset String) (ns : List UpRecord)
    (r : UpRecord) (hr : r ∈ (send_success_numbers_to_group fails sent ns).2) :
    r ∈ (filterNew sent ns).1 := by
  unfold send_success_numbers_to_group at hr
  cases hns : ns.isEmpty <;> rw [hns] at hr
  · cases hnew : (filterNew sent ns).1.isEmpty <;> rw [hnew] at hr <;> simp at hr
    exact deliverAll_mem fails _ r hr
  · simp at hr

theorem truthyId_eq_some (r : UpRecord) (s : String) (h : truthyId r = some s) :
    r.id = some s ∧ s ≠ "" := by
  unfold truthyId at h
  split at h
  case _ t heq =>
    split at h
    · exact absurd h (by simp)
    case _ hne =>
      obtain rfl := Option.some.inj h
      exact ⟨heq, hne⟩
  case _ heq => exact absurd h (by simp)

/-! Claim theorems for the reconciliation cycle. -/

/-- C1 counterexample: the claim "a delivery failure for that record must not
leave the id marked as seen" is false on the code. With an empty ledger and a
page containing the single record of id `"a"`, when every `send_message` call
raises, the cycle delivers nothing, yet `"a"` ends up in `sent_numbers`,
because ids are added during the filtering loop, before any delivery. -/
theorem markSeen_survives_delivery_failure :
    ("a" ∈ (send_success_numbers_to_group (fun _ => true) ∅ [recA]).1) ∧
      (send_success_numbers_to_group (fun _ => true) ∅ [recA]).2 = [] := by decide

/-- C1 amended: an `UpstreamRecord.id` is added to the ledger at most once, and
only for a record that has been queued for dispatch in that cycle (the `new`
list); a fetch failure, which yields an empty page, adds nothing. The resulting
ledger is the old one united with the truthy ids of the queued records,
independently of which deliveries fail, so a delivery failure leaves the id
marked (the accepted at-most-once tradeoff). -/
theorem ledger_ids_once_and_queued :
    (∀ (fails : UpRecord → Bool) (sent : Finset String),
        send_success_numbers_to_group fails sent [] = (sent, [])) ∧
    (∀ (sent : Finset String) (ns : List UpRecord),
        ((filterNew sent ns).1.filterMap truthyId).Nodup) ∧
    (∀ (fails : UpRecord → Bool) (sent : Finset String) (ns : List UpRecord),
        (send_success_numbers_to_group fails sent ns).1 =
          sent ∪ ((filterNew sent ns).1.filterMap truthyId).toFinset) := by
  refine ⟨fun fails sent => rfl, fun sent ns => filterNew_ids_nodup ns sent,
    fun fails sent ns => cycle_fst_eq fails sent ns⟩

/-- C3: processing the page `[{id:"a"}, {id:"b"}, {id:"a"}]` once with an empty
ledger delivers exactly one announcement for id `"a"` and one for id `"b"`, in
that relative order; the repeated id is marked seen at its first encounter and
the duplicate is not re-queued within the cycle. -/
theorem duplicate_id_page_single_announcement :
    send_success_numbers_to_group (fun _ => false) ∅ [recA, recB, recA] =
      ({"a", "b"}, [recA, recB]) := by decide

/-- C4 counterexample: the claim "a delivery failure for one kept record does
not block delivery of the subsequent kept records" is false on the code. With
kept records `recA, recB` and `send_message` raising exactly on `recA`, record
`recB` is kept by the filtering step but never dispatched, because the whole
delivery loop sits inside one try/except. -/
theorem delivery_failure_blocks_rest :
    recB ∈ (filterNew ∅ [recA, recB]).1 ∧
      (send_success_numbers_to_group failsRecA ∅ [recA, recB]).2 = [] := by decide

/-- C4 amended: a delivery failure aborts the remainder of the cycle: the
records delivered are exactly the kept records preceding the first failing
one, and no later record is dispatched (the failure is logged by the outer
handler and nothing is retried). -/
theorem delivery_stops_at_first_failure (fails : UpRecord → Bool)
    (l1 l2 : List UpRecord) (r : UpRecord)
    (h1 : ∀ x ∈ l1, fails x = false) (h2 : fails r = true) :
    deliverAll fails (l1 ++ r :: l2) = l1 := by
  induction l1 with
  | nil => simp [deliverAll, h2]
  | cons a l ih =>
    have ha := h1 a (List.mem_cons_self a l)
    have ih2 := ih (fun x hx => h1 x (List.mem_cons_of_mem a hx))
    simp only [List.cons_append, deliverAll, ha, Bool.false_eq_true, if_false]
    exact congrArg (fun t => a :: t) ih2

/-- C4 witness: with `recB` succeeding and `recA` failing, of the kept list
`[recB, recA, recC]` only `recB` is delivered. -/
theorem delivery_stops_at_first_failure_witness :
    (∀ x ∈ ([recB] : List UpRecord), failsRecA x = false) ∧ failsRecA recA = true ∧
      deliverAll failsRecA ([recB] ++ recA :: [recC]) = [recB] :=
  ⟨by decide, by decide,
    delivery_stops_at_first_failure failsRecA [recB] [recC] recA (by decide) (by decide)⟩

/-- C8: running the cycle a second time when the ledger already contains every
(truthy) id of the second page produces zero announcements and leaves the
ledger unchanged. -/
theorem second_cycle_idempotent (f1 f2 : UpRecord → Bool) (sent : Finset String)
    (ns1 ns2 : List UpRecord)
    (h : ∀ s ∈ ns2.filterMap truthyId,
        s ∈ (send_success_numbers_to_group f1 sent ns1).1) :
    send_success_numbers_to_group f2 (send_success_numbers_to_group f1 sent ns1).1 ns2 =
      ((send_success_numbers_to_group f1 sent ns1).1, []) := by
  set sent1 := (send_success_numbers_to_group f1 sent ns1).1
  have hf := filterNew_all_seen ns2 sent1 h
  unfold send_success_numbers_to_group
  simp [hf]

/-- C8 witness: after announcing the page `[recA]` from an empty ledger, a
second cycle over the same page announces nothing and keeps the ledger. -/
theorem second_cycle_idempotent_witness :
    (∀ s ∈ ([recA] : List UpRecord).filterMap truthyId,
        s ∈ (send_success_numbers_to_group (fun _ => false) ∅ [recA]).1) ∧
      send_success_numbers_to_group (fun _ => false)
          (send_success_numbers_to_group (fun _ => false) ∅ [recA]).1 [recA] =
        ((send_success_numbers_to_group (fun _ => false) ∅ [recA]).1, []) :=
  ⟨by decide,
    second_cycle_idempotent (fun _ => false) (fun _ => false) ∅ [recA] [recA] (by decide)⟩

/-- C10: a record whose id is missing or empty is never announced and never
added to the ledger: if every ledger entry is a truthy (non-empty) id, then
after any cycle every ledger entry is still truthy, and every delivered record
carries a present, non-empty id. -/
theorem truthy_id_invariant (fails : UpRecord → Bool) (sent : Finset String)
    (ns : List UpRecord) (h : ∀ s ∈ sent, s ≠ "") :
    (∀ s ∈ (send_success_numbers_to_group fails sent ns).1, s ≠ "") ∧
      (∀ r ∈ (send_success_numbers_to_group fails sent ns).2,
        ∃ s, r.id = some s ∧ s ≠ "") := by
  constructor
  · intro s hs
    rw [cycle_fst_eq fails sent ns] at hs
    rcases Finset.mem_union.mp hs with h1 | h2
    · exact h s h1
    · rw [List.mem_toFinset] at h2
      obtain ⟨r, _, ht⟩ := List.mem_filterMap.mp h2
      exact (truthyId_eq_some r s ht).2
  · intro r hr
    obtain ⟨s, hs, _⟩ :=
      filterNew_mem_truthy ns sent r (cycle_snd_sub fails sent ns r hr)
    exact ⟨s, truthyId_eq_some r s hs⟩

/-- C10 witness: starting from the ledger containing the truthy id `"x"`, a
cycle over a page with one truthy record and one id-less record preserves the
invariant and only announces records with a present, non-empty id. -/
theorem truthy_id_invariant_witness :
    (∀ s ∈ ({"x"} : Finset String), s ≠ "") ∧
      ((∀ s ∈ (send_success_numbers_to_group (fun _ => false) {"x"} [recA, recNone]).1,
          s ≠ "") ∧
        (∀ r ∈ (send_success_numbers_to_group (fun _ => false) {"x"} [recA, recNone]).2,
          ∃ s, r.id = some s ∧ s ≠ "")) :=
  ⟨by decide, truthy_id_invariant (fun _ => false) {"x"} [recA, recNone] (by decide)⟩

/-! Helper lemmas about the masking functions. -/

theorem format_phone_number_short (p : String) (hp : p ≠ "")
    (h : (p.data.filter Char.isDigit).length < 6) : format_phone_number p = p := by
  unfold format_phone_number
  rw [if_neg hp, if_pos h]

theorem format_phone_number_masked (p : String)
    (h : 6 ≤ (p.data.filter Char.isDigit).length) :
    format_phone_number p =
      String.mk ((p.data.filter Char.isDigit).take 3 ++ stars5 ++
        (p.data.filter Char.isDigit).drop ((p.data.filter Char.isDigit).length - 3)) := by
  have hp : p ≠ "" := by
    intro he
    rw [he] at h
    exact absurd h (by decide)
  unfold format_phone_number
  rw [if_neg hp, if_neg (by omega)]

theorem mask_number_masked (p : String) (h : 6 < (p.data.filter Char.isDigit).length) :
    mask_number p =
      String.mk ((p.data.filter Char.isDigit).take 5 ++ stars5 ++
        (p.data.filter Char.isDigit).drop ((p.data.filter Char.isDigit).length - 3)) := by
  unfold mask_number
  rw [if_pos h]

theorem mask_number_short (p : String) (h : (p.data.filter Char.isDigit).length ≤ 6)
    (hne : p.data.filter Char.isDigit ≠ []) :
    mask_number p = String.mk (p.data.filter Char.isDigit) := by
  unfold mask_number
  rw [if_neg (by omega), if_neg (by simp [List.isEmpty_iff, hne])]

/-! Claim theorems for the masking functions. -/

/-- C5 counterexample: the claim "digit count ≤ 6 is returned unmasked, and
otherwise first block + mask + last block with the quoted examples" fails on
the code at digit count exactly 6 for the inbound-path function, which masks
already at 6 digits; and the upstream-path function keeps the first five
digits, so it does not produce the quoted `"155*****567"` either. -/
theorem mask_threshold_counterexample :
    format_phone_number ("123456") ≠ "123456" ∧
      format_phone_number ("123456") = "123*****456" ∧
      mask_number ("15551234567") ≠ "155*****567" ∧
      mask_number ("15551234567") = "15551*****567" := by decide

/-- C5 amended: `format_phone_number` strips non-digits and returns the raw
string unchanged only when fewer than 6 digits remain; at 6 or more digits it
returns the first 3 digits, the mask glyph run, and the last 3 digits, so that
`format_phone_number "12345" = "12345"` and
`format_phone_number "15551234567" = "155*****567"`. The upstream-path
`mask_number` returns the bare digits at up to 6 digits and masks with the
first 5 digits kept when more than 6 remain. -/
theorem mask_functions_amended :
    (format_phone_number ("12345") = "12345") ∧
    (format_phone_number ("15551234567") = "155*****567") ∧
    (∀ p : String, p ≠ "" → (p.data.filter Char.isDigit).length < 6 →
        format_phone_number p = p) ∧
    (∀ p : String, 6 ≤ (p.data.filter Char.isDigit).length →
        format_phone_number p =
          String.mk ((p.data.filter Char.isDigit).take 3 ++ stars5 ++
            (p.data.filter Char.isDigit).drop ((p.data.filter Char.isDigit).length - 3))) ∧
    (∀ p : String, (p.data.filter Char.isDigit).length ≤ 6 →
        p.data.filter Char.isDigit ≠ [] →
        mask_number p = String.mk (p.data.filter Char.isDigit)) ∧
    (∀ p : String, 6 < (p.data.filter Char.isDigit).length →
        mask_number p =
          String.mk ((p.data.filter Char.isDigit).take 5 ++ stars5 ++
            (p.data.filter Char.isDigit).drop ((p.data.filter Char.isDigit).length - 3))) :=
  ⟨by decide, by decide, format_phone_number_short, format_phone_number_masked,
    mask_number_short, mask_number_masked⟩

/-- C5 witness: the branch facts of the amended claim evaluated at concrete
inputs covering each hypothesis. -/
theorem mask_functions_amended_witness :
    (("1-2345" : String) ≠ "" ∧ ("1-2345".data.filter Char.isDigit).length < 6 ∧
        format_phone_number ("1-2345") = "1-2345") ∧
      (6 ≤ ("1234567".data.filter Char.isDigit).length ∧
        format_phone_number ("1234567") =
          String.mk (("1234567".data.filter Char.isDigit).take 3 ++ stars5 ++
            ("1234567".data.filter Char.isDigit).drop
              (("1234567".data.filter Char.isDigit).length - 3))) ∧
      (("123456".data.filter Char.isDigit).length ≤ 6 ∧
        "123456".data.filter Char.isDigit ≠ [] ∧
        mask_number ("123456") = String.mk ("123456".data.filter Char.isDigit)) ∧
      (6 < ("123456789".data.filter Char.isDigit).length ∧
        mask_number ("123456789") =
          String.mk (("123456789".data.filter Char.isDigit).take 5 ++ stars5 ++
            ("123456789".data.filter Char.isDigit).drop
              (("123456789".data.filter Char.isDigit).length - 3))) :=
  ⟨⟨by decide, by decide, mask_functions_amended.2.2.1 ("1-2345") (by decide) (by decide)⟩,
    ⟨by decide, mask_functions_amended.2.2.2.1 ("1234567") (by decide)⟩,
    ⟨by decide, by decide, mask_functions_amended.2.2.2.2.1 ("123456") (by decide) (by decide)⟩,
    ⟨by decide, mask_functions_amended.2.2.2.2.2 ("123456789") (by decide)⟩⟩

/-- C6: for more than 6 digits, both masking functions produce exactly a
leading block of digits (3 for the inbound path, 5 for the upstream path),
the five-asterisk mask run, and the last 3 digits; in particular both outputs
start with the first 3 digits, and no digit strictly between the preserved
leading block and the trailing 3-digit block appears in the output. -/
theorem both_masks_preserve_edges (p : String)
    (h : 6 < (p.data.filter Char.isDigit).length) :
    format_phone_number p =
      String.mk ((p.data.filter Char.isDigit).take 3 ++ stars5 ++
        (p.data.filter Char.isDigit).drop ((p.data.filter Char.isDigit).length - 3)) ∧
    mask_number p =
      String.mk ((p.data.filter Char.isDigit).take 5 ++ stars5 ++
        (p.data.filter Char.isDigit).drop ((p.data.filter Char.isDigit).length - 3)) ∧
    (format_phone_number p).data.take 3 = (p.data.filter Char.isDigit).take 3 ∧
    (mask_number p).data.take 3 = (p.data.filter Char.isDigit).take 3 := by
  have h1 := format_phone_number_masked p (by omega)
  have h2 := mask_number_masked p h
  refine ⟨h1, h2, ?_, ?_⟩
  · rw [h1]
    show (((p.data.filter Char.isDigit).take 3 ++ stars5) ++ _).take 3 = _
    rw [List.append_assoc,
      List.take_append_of_le_length (by rw [List.length_take]; omega),
      List.take_take]
    norm_num
  · rw [h2]
    show (((p.data.filter Char.isDigit).take 5 ++ stars5) ++ _).take 3 = _
    rw [List.append_assoc,
      List.take_append_of_le_length (by rw [List.length_take]; omega),
      List.take_take]
    norm_num

/-- C6 witness: both masking functions evaluated at an 11-digit number. -/
theorem both_masks_preserve_edges_witness :
    6 < ("15551234567".data.filter Char.isDigit).length ∧
      (format_phone_number ("15551234567") =
        String.mk (("15551234567".data.filter Char.isDigit).take 3 ++ stars5 ++
          ("15551234567".data.filter Char.isDigit).drop
            (("15551234567".data.filter Char.isDigit).length - 3)) ∧
      mask_number ("15551234567") =
        String.mk (("15551234567".data.filter Char.isDigit).take 5 ++ stars5 ++
          ("15551234567".data.filter Char.isDigit).drop
            (("15551234567".data.filter Char.isDigit).length - 3)) ∧
      (format_phone_number ("15551234567")).data.take 3 =
        ("15551234567".data.filter Char.isDigit).take 3 ∧
      (mask_number ("15551234567")).data.take 3 =
        ("15551234567".data.filter Char.isDigit).take 3) :=
  ⟨by decide, both_masks_preserve_edges ("15551234567") (by decide)⟩

/-! Helper lemma about the first-match-wins pattern iteration. -/

theorem findSome_id_eq_none {α : Type} :
    ∀ l : List (Option α), l.findSome? id = none ↔ ∀ o ∈ l, o = none := by
  intro l
  induction l with
  | nil => simp [List.findSome?]
  | cons a l ih =>
    cases a with
    | none => simp [List.findSome?, ih]
    | some b => simp [List.findSome?]

/-! Claim theorems for OTP extraction. -/

/-- C2 counterexample: the claim "labeled patterns are tried before bare-token
patterns" is false on the code: the pattern list puts the bare patterns first.
On `"ref 1111 your code: 482913"` the labeled pattern captures `"482913"`, yet
`extract_otp` returns the earlier bare token `"1111"`. -/
theorem bare_digit_token_beats_labeled :
    extract_otp ("ref 1111 your code: 482913") = some ("1111") ∧
      findLabeled ("your code".data) ("ref 1111 your code: 482913".data) =
        some ("482913") ∧
      (some ("1111") : Option String) ≠ some ("482913") := by decide

/-- C2 amended: bare-token patterns are tried before the labeled ones, so
whenever the text contains a standalone 4-8 digit token, `extract_otp` returns
the first such token; the digits of a labeled form are returned only when
they are themselves that first matching token. -/
theorem first_digit_token_wins (text : String) (c : String)
    (h : (digitTokens text).head? = some c) : extract_otp text = some c := by
  unfold extract_otp otpPatternFirsts
  rw [h]
  simp [List.findSome?]

/-- C2 witness: in `"your code: 482913"` the labeled digits are also the first
bare digit token, so they are returned. -/
theorem first_digit_token_wins_witness :
    (digitTokens ("your code: 482913")).head? = some ("482913") ∧
      extract_otp ("your code: 482913") = some ("482913") :=
  ⟨by decide, first_digit_token_wins ("your code: 482913") ("482913") (by decide)⟩

/-- C9: on text where none of the seven ordered patterns matches (the meaning
of "no code-like substring"), `extract_otp` returns `none`; concretely so on
`"hi at me"`, whose word tokens are all shorter than 4 characters and which
contains no labeled form. -/
theorem no_pattern_no_otp :
    extract_otp ("hi at me") = none ∧
      ∀ text : String, (extract_otp text = none ↔ ∀ o ∈ otpPatternFirsts text, o = none) :=
  ⟨by decide, fun text => findSome_id_eq_none (otpPatternFirsts text)⟩

/-! Claim theorem for timestamp rendering. -/

/-- C7: the `receivedAt` renderer parses the ISO-8601 timestamp with a trailing
`Z` normalized to a UTC offset, shifts by the fixed 6-hour display offset and
prints `DD-MM-YYYY hh:mm:ss AM/PM`, so `"2024-01-01T10:00:00Z"` renders as
`"01-01-2024 04:00:00 PM"`; and for every input string the result is either
that formatted shift of a successful parse or the original string unchanged
(in particular `"not-a-date"` passes through), so the formatting never fails
the pipeline. -/
theorem renderTime_spec :
    renderReceivedTime ("2024-01-01T10:00:00Z") = "01-01-2024 04:00:00 PM" ∧
      renderReceivedTime ("not-a-date") = "not-a-date" ∧
      ∀ s : String, renderReceivedTime s = s ∨
        ∃ dt : PyDateTime, fromisoformat (replaceZ s) = some dt ∧
          renderReceivedTime s = strftimeDisplay (addHours6 dt) := by
  refine ⟨by decide, by decide, fun s => ?_⟩
  by_cases h : s ≠ "" ∧ s ≠ "N/A"
  · rcases hp : fromisoformat (replaceZ s) with _ | dt
    · left
      simp [renderReceivedTime, h, hp]
    · right
      refine ⟨dt, rfl, ?_⟩
      simp only [renderReceivedTime, if_pos h, hp]
  · left
    simp [renderReceivedTime, h]
